import Mathlib

/-!
# Verification of the ROS-like pub/sub middleware core

Shallow embedding of `src/core/ros_core.py`, `src/nodes/master_node.py` and
`src/nodes/node.py`: the message value type and its wire codec, the address
type and its string form, the length-prefixed framing, the connect retry
loop, the registration handshake, and the Master's registry handlers.

Python `dict`s are modelled as association lists with unique keys kept in
insertion order (matching Python 3.7+ dict semantics); Python exceptions
escaping a `try` body are modelled by making each handler return the state
as mutated up to the raise point, exactly as the source's `except` clauses
leave it. JSON payloads are modelled by an inductive `JValue`; the byte
image produced by `json.dumps` is identified with the `JValue` it denotes
(`json.dumps`/`json.loads` round-trip JSON-representable values).
-/

namespace RosCore

/-- JSON-representable values: the payloads `json.dumps` accepts and
`json.loads` returns.  Python numbers (ints and floats) are modelled as
rationals. -/
inductive JValue : Type where
  | null : JValue
  | bool : Bool → JValue
  | num : ℚ → JValue
  | str : String → JValue
  | arr : List JValue → JValue
  | obj : List (String × JValue) → JValue

/-- Dataclass `Message` from `ros_core.py`: `topic`, `data`, `timestamp`,
`message_id`, `source_node`. -/
structure Message where
  topic : String
  data : JValue
  timestamp : ℚ
  message_id : String
  source_node : Option String

/-- The dataclass field defaults of `Message`.  In Python, the default
expressions `time.time()` and `str(uuid.uuid4())` are evaluated ONCE, when
the `class Message` statement executes, and the resulting two constants are
shared by every construction that omits the corresponding argument.  The
two constants are abstracted here as this structure; one fixed value of it
exists per Python process. -/
structure MessageDefaults where
  default_timestamp : ℚ
  default_message_id : String

/-- A construction event `Message(topic=t, data=d, source_node=s)` that
passes no explicit `timestamp` or `message_id`: both fields receive the
class-definition-time constants from `defs`. -/
def mkMessage (defs : MessageDefaults) (topic : String) (data : JValue)
    (source_node : Option String) : Message :=
  { topic := topic
    data := data
    timestamp := defs.default_timestamp
    message_id := defs.default_message_id
    source_node := source_node }

/-! ## Wire codec (`NetworkSerializer` + `Message.to_network`/`from_network`)

`NetworkSerializer.serialize` turns the dataclass into the dict
`asdict(obj)` (fields in declaration order), adds the key `'__dataclass__'`
mapping to the class name, and `json.dumps`-encodes it.
`NetworkSerializer.deserialize` runs `json.loads`, pops `'__dataclass__'`
if present, and rebuilds the dataclass with `Message(**obj_dict)`.  The
byte level is identified with the JSON value it encodes. -/

/-- Function `serialize` applied to a `Message`: `asdict` of the five fields, in
declaration order, plus the `'__dataclass__'` tag. -/
def serialize (m : Message) : JValue :=
  .obj [("topic", .str m.topic),
        ("data", m.data),
        ("timestamp", .num m.timestamp),
        ("message_id", .str m.message_id),
        ("source_node", match m.source_node with
          | none => JValue.null
          | some s => JValue.str s),
        ("__dataclass__", .str "Message")]

/-- Python `obj_dict.pop(k)`: the value at the first occurrence of `k` together
with the dict with that entry removed; `none` if `k` is absent. -/
def popKey (k : String) : List (String × JValue) →
    Option (JValue × List (String × JValue))
  | [] => none
  | (k', v) :: rest =>
    if k' = k then some (v, rest)
    else (popKey k rest).map (fun p => (p.1, (k', v) :: p.2))

/-- Python `obj_dict[k]` as an option: first occurrence of key `k`. -/
def jLookup (k : String) : List (String × JValue) → Option JValue
  | [] => none
  | (k', v) :: rest => if k' = k then some v else jLookup k rest

/-- Python `Message(**obj_dict)` after the tag was popped.  The keyword arguments
must all be field names (an unknown key is a `TypeError`); `topic` and
`data` are required, the other three fall back to the dataclass defaults
(`source_node`'s declared default is `None`).  Where Python would accept a
value of unexpected shape without checking (dataclasses do not enforce
annotations), this embedding requires the shape the encoder produces;
no input reachable from `serialize` hits the difference. -/
def fromFields (defs : MessageDefaults) (kvs : List (String × JValue)) :
    Option Message :=
  if kvs.all (fun kv => kv.1 = "topic" ∨ kv.1 = "data" ∨ kv.1 = "timestamp"
      ∨ kv.1 = "message_id" ∨ kv.1 = "source_node") then
    match jLookup "topic" kvs, jLookup "data" kvs with
    | some (JValue.str t), some d =>
      let ts? : Option ℚ := match jLookup "timestamp" kvs with
        | none => some defs.default_timestamp
        | some (JValue.num q) => some q
        | some _ => none
      let mid? : Option String := match jLookup "message_id" kvs with
        | none => some defs.default_message_id
        | some (JValue.str s) => some s
        | some _ => none
      let src? : Option (Option String) := match jLookup "source_node" kvs with
        | none => some none
        | some JValue.null => some none
        | some (JValue.str s) => some (some s)
        | some _ => none
      match ts?, mid?, src? with
      | some ts, some mid, some src => some ⟨t, d, ts, mid, src⟩
      | _, _, _ => none
    | _, _ => none
  else none

/-- Function `deserialize` restricted to the `Message` result type
(`Message.from_network`): the decoded JSON must be an object tagged
`'__dataclass__': 'Message'`; the tag is popped and the dataclass rebuilt.
Any other decoded value is not a `Message` (a different tag resolves to a
different class, an untagged value is returned raw). -/
def deserializeMessage (defs : MessageDefaults) (j : JValue) : Option Message :=
  match j with
  | .obj kvs =>
    match popKey "__dataclass__" kvs with
    | some (JValue.str "Message", rest) => fromFields defs rest
    | _ => none
  | _ => none

/-! ## Claims C1 and C5 -/

/-- C1: the spec's invariant — `message_id` unique per message instance,
assigned at construction — FAILS on the code.  The default expression
`str(uuid.uuid4())` in the dataclass declaration is evaluated once at class
definition time, so every construction event that omits `message_id`
receives the one shared constant: any two such messages have EQUAL
`message_id`, whatever their topics, payloads and sources. -/
theorem message_id_shared_across_constructions (defs : MessageDefaults)
    (t₁ t₂ : String) (d₁ d₂ : JValue) (s₁ s₂ : Option String) :
    (mkMessage defs t₁ d₁ s₁).message_id = (mkMessage defs t₂ d₂ s₂).message_id :=
  rfl

/-- C5: codec round-trip.  For every message (its `data` being
JSON-representable by the type of the embedding), decoding the encoding
reproduces every field exactly: `deserialize (serialize m) = some m`. -/
theorem codec_roundtrip (defs : MessageDefaults) (m : Message) :
    deserializeMessage defs (serialize m) = some m := by
  cases m with
  | mk topic data timestamp message_id source_node =>
    cases source_node <;> rfl

/-! ## `NetworkAddress` and its string form

`str(addr)` is `f"{host}:{port}"`; `NetworkAddress.from_string` splits on
`':'`, requires exactly two parts, and parses the port with `int(...)`.
Python's `str`/`int` on integers are the canonical decimal printer and
parser, embedded below on character lists (`int(...)` additionally accepts
whitespace, a leading `+` and underscores; those forms are not producible
by `str` and are irrelevant to every state reachable here, so the embedded
parser covers the canonical decimal forms and rejects the rest). -/

structure NetworkAddress where
  host : String
  port : Int
deriving DecidableEq, Repr

/-- Decimal digits of a natural number, most significant first:
the character list of Python's `str(n)` for `n ≥ 0`. -/
def natToChars (n : Nat) : List Char :=
  if n < 10 then [Nat.digitChar n]
  else natToChars (n / 10) ++ [Nat.digitChar (n % 10)]
decreasing_by simp_wf; omega

/-- The numeric value of a decimal digit character, if it is one. -/
def digitVal (c : Char) : Option Nat :=
  if 48 ≤ c.toNat ∧ c.toNat ≤ 57 then some (c.toNat - 48) else none

/-- Accumulating decimal parse: `int(...)`'s digit loop. -/
def parseNatAux : List Char → Nat → Option Nat
  | [], acc => some acc
  | c :: rest, acc =>
    match digitVal c with
    | some d => parseNatAux rest (acc * 10 + d)
    | none => none

/-- Python `int(s)` for an unsigned decimal string; empty input is a
`ValueError`, i.e. `none`. -/
def parseNat (cs : List Char) : Option Nat :=
  if cs.isEmpty then none else parseNatAux cs 0

/-- The character list of Python's `str(i)` for an integer. -/
def intToChars (i : Int) : List Char :=
  if i < 0 then '-' :: natToChars i.natAbs else natToChars i.toNat

/-- Python `int(s)` for a decimal string with an optional leading minus sign. -/
def parseInt (cs : List Char) : Option Int :=
  match cs with
  | [] => none
  | c :: rest =>
    if c = '-' then (parseNat rest).map (fun n : Nat => -(n : Int))
    else (parseNat (c :: rest)).map (fun n : Nat => (n : Int))

/-- Python's `str.split(sep)` for a one-character separator, on character
lists, with an accumulator for the current piece. -/
def splitOnCharAux (c : Char) : List Char → List Char → List (List Char)
  | [], acc => [acc.reverse]
  | x :: xs, acc =>
    if x = c then acc.reverse :: splitOnCharAux c xs []
    else splitOnCharAux c xs (x :: acc)

/-- Python's `s.split(c)` on character lists. -/
def splitOnChar (c : Char) (cs : List Char) : List (List Char) :=
  splitOnCharAux c cs []

/-- Method `NetworkAddress.__str__`: `f"{self.host}:{self.port}"`. -/
def addrToString (a : NetworkAddress) : String :=
  a.host ++ ":" ++ String.mk (intToChars a.port)

/-- Static method `NetworkAddress.from_string`: split on `':'`, unpack exactly two
parts (anything else is a `ValueError`, i.e. `none`), parse the port. -/
def addrFromString (s : String) : Option NetworkAddress :=
  match splitOnChar ':' s.data with
  | [h, p] => (parseInt p).map (fun n => { host := String.mk h, port := n })
  | _ => none

/-! ### Decimal print/parse round-trip -/

theorem digitVal_digitChar {d : Nat} (h : d < 10) :
    digitVal (Nat.digitChar d) = some d := by
  interval_cases d <;> rfl

theorem digitChar_in_range {d : Nat} (h : d < 10) :
    48 ≤ (Nat.digitChar d).toNat ∧ (Nat.digitChar d).toNat ≤ 57 := by
  interval_cases d <;> exact ⟨by decide, by decide⟩

theorem parseNatAux_append (xs ys : List Char) (acc : Nat) :
    parseNatAux (xs ++ ys) acc =
      (parseNatAux xs acc).bind (fun a => parseNatAux ys a) := by
  induction xs generalizing acc with
  | nil => rfl
  | cons c rest ih =>
    simp only [List.cons_append, parseNatAux]
    cases digitVal c with
    | none => rfl
    | some d => exact ih _

theorem natToChars_ne_nil (n : Nat) : natToChars n ≠ [] := by
  rw [natToChars]
  split
  · simp
  · simp

theorem natToChars_digits (n : Nat) :
    ∀ c ∈ natToChars n, 48 ≤ c.toNat ∧ c.toNat ≤ 57 := by
  induction n using Nat.strong_induction_on with
  | _ n ih =>
    rw [natToChars]
    split
    · intro c hc
      simp only [List.mem_singleton] at hc
      subst hc
      exact digitChar_in_range (by omega)
    · intro c hc
      rw [List.mem_append, List.mem_singleton] at hc
      rcases hc with hc | hc
      · exact ih (n / 10) (by omega) c hc
      · subst hc
        exact digitChar_in_range (Nat.mod_lt _ (by omega))

theorem parseNatAux_natToChars (n : Nat) : ∀ acc : Nat,
    parseNatAux (natToChars n) acc =
      some (acc * 10 ^ (natToChars n).length + n) := by
  induction n using Nat.strong_induction_on with
  | _ n ih =>
    intro acc
    rw [natToChars]
    split
    · simp only [parseNatAux, digitVal_digitChar (by omega : n < 10)]
      simp only [List.length_singleton, pow_one]
    · rename_i hn
      rw [parseNatAux_append, ih (n / 10) (by omega)]
      have hstep : ∀ b : Nat,
          (some b).bind (fun a => parseNatAux [Nat.digitChar (n % 10)] a) =
            some (b * 10 + n % 10) := by
        intro b
        show parseNatAux [Nat.digitChar (n % 10)] b = some (b * 10 + n % 10)
        simp only [parseNatAux, digitVal_digitChar (Nat.mod_lt n (by omega))]
      rw [hstep, List.length_append, List.length_singleton, pow_succ,
        ← Nat.mul_assoc]
      congr 1
      generalize acc * 10 ^ (natToChars (n / 10)).length = m
      omega

theorem parseNat_natToChars (n : Nat) : parseNat (natToChars n) = some n := by
  rw [parseNat, if_neg (by simp [List.isEmpty_iff, natToChars_ne_nil]),
    parseNatAux_natToChars]
  simp

theorem parseInt_cons (c : Char) (rest : List Char) :
    parseInt (c :: rest) =
      if c = '-' then (parseNat rest).map (fun n : Nat => -(n : Int))
      else (parseNat (c :: rest)).map (fun n : Nat => (n : Int)) := rfl

theorem parseInt_intToChars (i : Int) : parseInt (intToChars i) = some i := by
  rw [intToChars]
  split
  · rename_i hneg
    rw [parseInt_cons, if_pos rfl, parseNat_natToChars, Option.map_some']
    congr 1
    omega
  · rename_i hpos
    rcases hcons : natToChars i.toNat with _ | ⟨c, rest⟩
    · exact absurd hcons (natToChars_ne_nil _)
    · have hc : 48 ≤ c.toNat ∧ c.toNat ≤ 57 := by
        refine natToChars_digits i.toNat c ?_
        rw [hcons]
        exact List.mem_cons_self _ _
      have hne : ¬ c = '-' := by
        intro h
        subst h
        revert hc
        decide
      rw [parseInt_cons, if_neg hne, ← hcons, parseNat_natToChars,
        Option.map_some']
      congr 1
      omega

/-! ### Split on `':'` -/

theorem splitOnCharAux_not_mem {c : Char} {xs : List Char} (h : c ∉ xs) :
    ∀ acc, splitOnCharAux c xs acc = [acc.reverse ++ xs] := by
  induction xs with
  | nil => intro acc; simp [splitOnCharAux]
  | cons x xs ih =>
    intro acc
    rw [List.mem_cons, not_or] at h
    rw [splitOnCharAux, if_neg (fun hxc => h.1 hxc.symm), ih h.2]
    simp

theorem splitOnChar_sep {c : Char} {h p : List Char}
    (hh : c ∉ h) (hp : c ∉ p) :
    splitOnChar c (h ++ c :: p) = [h, p] := by
  rw [splitOnChar]
  have key : ∀ acc, splitOnCharAux c (h ++ c :: p) acc =
      [acc.reverse ++ h, p] := by
    induction h with
    | nil =>
      intro acc
      rw [List.nil_append, splitOnCharAux, if_pos rfl,
        splitOnCharAux_not_mem hp]
      simp
    | cons x xs ih =>
      intro acc
      rw [List.mem_cons, not_or] at hh
      rw [List.cons_append, splitOnCharAux,
        if_neg (fun hxc => hh.1 hxc.symm), ih hh.2]
      simp
  rw [key []]
  simp

/-! ### Claim C8 -/

theorem intToChars_no_colon (i : Int) : ':' ∉ intToChars i := by
  rw [intToChars]
  intro hmem
  split at hmem
  · rw [List.mem_cons] at hmem
    rcases hmem with hmem | hmem
    · exact absurd hmem (by decide)
    · have := natToChars_digits _ _ hmem
      revert this
      decide
  · have := natToChars_digits _ _ hmem
    revert this
    decide

/-- C8: address round-trip.  For every `(host, port)` with a valid host
(one containing no `':'` — the separator `from_string` splits on),
parsing the formatted string `host:port` returns an address equal by
value to the original. -/
theorem address_roundtrip (a : NetworkAddress) (h : ':' ∉ a.host.data) :
    addrFromString (addrToString a) = some a := by
  obtain ⟨⟨l⟩, port⟩ := a
  have hdata : (addrToString ⟨⟨l⟩, port⟩).data = l ++ ':' :: intToChars port := by
    rw [addrToString, String.data_append, String.data_append,
      List.append_assoc]
    rfl
  rw [addrFromString, hdata, splitOnChar_sep h (intToChars_no_colon port)]
  show (parseInt (intToChars port)).map
      (fun n => ({ host := String.mk l, port := n } : NetworkAddress)) =
    some ({ host := ⟨l⟩, port := port } : NetworkAddress)
  rw [parseInt_intToChars, Option.map_some']

/-- Witness for C8 at `localhost:11511` (the Master's default address). -/
theorem address_roundtrip_witness :
    ':' ∉ ("localhost" : String).data ∧
      addrFromString (addrToString { host := "localhost", port := 11511 }) =
        some { host := "localhost", port := 11511 } :=
  ⟨by decide, address_roundtrip { host := "localhost", port := 11511 } (by decide)⟩

/-! ## The Master's registry and its handlers (`master_node.py`)

Python `dict`s (`nodes`, `publishers`, `subscribers`) are association
lists with unique keys in insertion order; `d[k] = v` overwrites in place
or appends a new entry at the end, exactly as Python 3.7+ dicts do.  Each
handler returns the mutated registry together with the list of
`send_message` calls it issued (destination and message), in order.
`send_message` itself returns a boolean and never raises, so a failing
send does not alter a handler's control flow. -/

/-- Python `d.get(k)` / `k in d`: first (only) occurrence of key `k`. -/
def dictGet {α : Type} (k : String) : List (String × α) → Option α
  | [] => none
  | (k', v) :: rest => if k' = k then some v else dictGet k rest

/-- Python `d[k] = v`: overwrite the entry in place if the key exists,
otherwise append a new entry at the end. -/
def dictSet {α : Type} (k : String) (v : α) : List (String × α) → List (String × α)
  | [] => [(k, v)]
  | (k', v') :: rest =>
    if k' = k then (k, v) :: rest else (k', v') :: dictSet k v rest

/-- The Python idiom `if k not in d: d[k] = []` — ensure the key maps to a
list, initially empty. -/
def dictEnsure {α : Type} (k : String) (d : List (String × List α)) :
    List (String × List α) :=
  if (dictGet k d).isSome then d else d ++ [(k, [])]

/-- The Python idiom `if k not in d: d[k] = []` followed by
`d[k].append(x)`. -/
def pyAppend {α : Type} (k : String) (x : α) (d : List (String × List α)) :
    List (String × List α) :=
  dictSet k ((dictGet k (dictEnsure k d)).getD [] ++ [x]) (dictEnsure k d)

/-- The Master's `Registry`: `nodes`, `publishers`, `subscribers`, exactly
the three dicts of `Master.__init__`. -/
structure Registry where
  nodes : List (String × NetworkAddress)
  publishers : List (String × List (String × NetworkAddress))
  subscribers : List (String × List (String × NetworkAddress))
deriving DecidableEq, Repr

/-- One `await self.network.send_message(msg, dest)` call issued by the
Master, with its destination address and the message sent. -/
structure SendEvent where
  dest : NetworkAddress
  msg : Message

/-- The `__publisher_info__` message built in
`Master.handle_subscriber_registration` for one publisher entry. -/
def publisherInfoMsg (defs : MessageDefaults) (pub_name : String)
    (pub_addr : NetworkAddress) (topic : String) : Message :=
  mkMessage defs "__publisher_info__"
    (.obj [("publisher_name", .str pub_name),
           ("publisher_address", .str (addrToString pub_addr)),
           ("topic", .str topic)])
    (some "master")

/-- The `__registration_confirm__` message built in
`Master.handle_registration`. -/
def registrationConfirmMsg (defs : MessageDefaults) : Message :=
  mkMessage defs "__registration_confirm__"
    (.obj [("status", .str "confirmed")]) (some "master")

/-- Handler `Master.handle_registration` with the payload fields already
extracted: parse the address string (a `ValueError` is caught by the
`except` clause, leaving the registry untouched), insert or overwrite
`nodes[node_name]`, and send the confirmation to the registered address. -/
def handle_registration (defs : MessageDefaults) (st : Registry)
    (node_name : String) (address : String) : Registry × List SendEvent :=
  match addrFromString address with
  | none => (st, [])
  | some addr =>
    ({ st with nodes := dictSet node_name addr st.nodes },
     [⟨addr, registrationConfirmMsg defs⟩])

/-- Handler `Master.handle_publisher_registration`: an unknown
`node_name` is logged and dropped; otherwise `(node_name, nodes[node_name])`
is appended to `publishers[topic]`.  No message is ever sent. -/
def handle_publisher_registration (st : Registry)
    (node_name topic : String) : Registry × List SendEvent :=
  match dictGet node_name st.nodes with
  | none => (st, [])
  | some addr =>
    ({ st with publishers := pyAppend topic (node_name, addr) st.publishers }, [])

/-- Handler `Master.handle_subscriber_registration`.  For a registered
`node_name`: one `__publisher_info__` send to `nodes[node_name]` per entry
of `publishers[topic]` (the snapshot taken by the `for` loop), then
`(node_name, nodes[node_name])` appended to `subscribers[topic]`.

For an unregistered `node_name` the body raises `KeyError` at the first
evaluation of `self.nodes[node_name]` and the `except` clause catches it:
with a non-empty `publishers[topic]` the raise happens in the loop's first
send, before any send is issued and before the subscriber-registration
lines run, so the registry is unchanged; with `publishers[topic]` absent
or empty the raise happens in the append argument, after
`if topic not in self.subscribers: self.subscribers[topic] = []` has
already run, so `subscribers` may gain an empty entry for `topic`. -/
def handle_subscriber_registration (defs : MessageDefaults) (st : Registry)
    (node_name topic : String) : Registry × List SendEvent :=
  match dictGet node_name st.nodes with
  | some addr =>
    (({ st with
        subscribers := pyAppend topic (node_name, addr) st.subscribers }),
     ((dictGet topic st.publishers).getD []).map
       (fun p => ⟨addr, publisherInfoMsg defs p.1 p.2 topic⟩))
  | none =>
    if ((dictGet topic st.publishers).getD []).isEmpty then
      ({ st with subscribers := dictEnsure topic st.subscribers }, [])
    else
      (st, [])

/-- Handler `Master.distribute_message`: relay the message, unchanged, to
the address of every entry currently in `subscribers[topic]`; an absent
key means no sends. -/
def distribute_message (st : Registry) (m : Message) :
    Registry × List SendEvent :=
  (st, ((dictGet m.topic st.subscribers).getD []).map (fun p => ⟨p.2, m⟩))

/-- Payload field access `message.data[k]` for the registration handlers:
the payload must be an object holding a string at `k` (a missing key
raises `KeyError` before any registry mutation, and every sender in
`node.py` sends strings). -/
def getStrField (m : Message) (k : String) : Option String :=
  match m.data with
  | .obj kvs =>
    match jLookup k kvs with
    | some (JValue.str s) => some s
    | _ => none
  | _ => none

/-- Dispatcher `Master.handle_message`: the three registration control
topics go to their handlers (with the payload fields extracted first —
a malformed payload raises inside the handler's `try` before any mutation
or send); every other topic is relayed by `distribute_message`. -/
def handle_message (defs : MessageDefaults) (st : Registry) (m : Message) :
    Registry × List SendEvent :=
  if m.topic = "__registration__" then
    match getStrField m "node_name", getStrField m "address" with
    | some n, some a => handle_registration defs st n a
    | _, _ => (st, [])
  else if m.topic = "__publisher_registration__" then
    match getStrField m "node_name", getStrField m "topic" with
    | some n, some t => handle_publisher_registration st n t
    | _, _ => (st, [])
  else if m.topic = "__subscriber_registration__" then
    match getStrField m "node_name", getStrField m "topic" with
    | some n, some t => handle_subscriber_registration defs st n t
    | _, _ => (st, [])
  else
    distribute_message st m

/-! ### Dictionary lemmas -/

theorem dictGet_dictSet_self {α : Type} (k : String) (v : α) :
    ∀ d : List (String × α), dictGet k (dictSet k v d) = some v := by
  intro d
  induction d with
  | nil => simp [dictGet, dictSet]
  | cons p rest ih =>
    rw [dictSet]
    split
    · rw [dictGet, if_pos rfl]
    · rw [dictGet]
      rename_i hne
      rw [if_neg hne]
      exact ih

theorem dictGet_dictSet_other {α : Type} {k t : String} (hne : t ≠ k) (v : α) :
    ∀ d : List (String × α), dictGet t (dictSet k v d) = dictGet t d := by
  intro d
  induction d with
  | nil =>
    show (if k = t then some v else dictGet t ([] : List (String × α))) =
      dictGet t []
    rw [if_neg (fun h => hne h.symm)]
  | cons p rest ih =>
    obtain ⟨p₁, p₂⟩ := p
    rw [dictSet]
    split
    · rename_i hk
      subst hk
      rw [dictGet, dictGet, if_neg (fun h => hne h.symm),
        if_neg (fun h => hne h.symm)]
    · rw [dictGet, dictGet, ih]

theorem dictGet_append {α : Type} (k : String) (l : List (String × α)) :
    ∀ d : List (String × α), dictGet k (d ++ l) =
      match dictGet k d with
      | some v => some v
      | none => dictGet k l := by
  intro d
  induction d with
  | nil => rfl
  | cons p rest ih =>
    rw [List.cons_append, dictGet, dictGet]
    split
    · rfl
    · exact ih

theorem dictGet_dictEnsure {α : Type} (k t : String)
    (d : List (String × List α)) :
    (dictGet t (dictEnsure k d)).getD [] = (dictGet t d).getD [] := by
  rw [dictEnsure]
  split
  · rfl
  · rw [dictGet_append]
    cases h : dictGet t d with
    | some v => rfl
    | none =>
      show (dictGet t [(k, [])]).getD [] = (none : Option (List α)).getD []
      rw [dictGet]
      split <;> rfl

theorem dictGet_pyAppend_self {α : Type} (k : String) (x : α)
    (d : List (String × List α)) :
    dictGet k (pyAppend k x d) = some ((dictGet k d).getD [] ++ [x]) := by
  rw [pyAppend, dictGet_dictSet_self, dictGet_dictEnsure]

theorem dictGet_pyAppend_other {α : Type} {k t : String} (hne : t ≠ k)
    (x : α) (d : List (String × List α)) :
    (dictGet t (pyAppend k x d)).getD [] = (dictGet t d).getD [] := by
  rw [pyAppend, dictGet_dictSet_other hne, dictGet_dictEnsure]

/-! ### Claims C2, C7, C9, C10 -/

/-- C2: discovery snapshot semantics.  Handling `__subscriber_registration__`
for topic `T` from a registered node `S` issues exactly one
`__publisher_info__` send (carrying `publisher_name`, `publisher_address`
and `topic`) to `S`'s address per entry of `publishers[T]`, in order; the
sends are computed from the pre-state snapshot, and only then is
`(S, address)` appended to `subscribers[T]`; and handling
`__publisher_registration__` at any state issues zero sends, so a publisher
registering after `S` subscribed is never retroactively disclosed to `S`. -/
theorem subscriber_registration_snapshot (defs : MessageDefaults)
    (st : Registry) (S T : String) (addr : NetworkAddress)
    (h : dictGet S st.nodes = some addr) :
    (handle_subscriber_registration defs st S T).2 =
        ((dictGet T st.publishers).getD []).map
          (fun p => ⟨addr, publisherInfoMsg defs p.1 p.2 T⟩) ∧
      dictGet T (handle_subscriber_registration defs st S T).1.subscribers =
        some ((dictGet T st.subscribers).getD [] ++ [(S, addr)]) ∧
      ∀ (st' : Registry) (P : String),
        (handle_publisher_registration st' P T).2 = [] := by
  refine ⟨?_, ?_, ?_⟩
  · simp only [handle_subscriber_registration, h]
  · simp only [handle_subscriber_registration, h]
    rw [dictGet_pyAppend_self]
  · intro st' P
    cases h' : dictGet P st'.nodes <;>
      simp [handle_publisher_registration, h']

/-- Shared concrete fixtures for the witnesses: a defaults record, two
addresses, and a registry with one publisher of topic `temp` and one
further registered node. -/
def sampleDefs : MessageDefaults := ⟨0, "uuid-0"⟩

def addrA : NetworkAddress := ⟨"localhost", 9001⟩

def addrB : NetworkAddress := ⟨"localhost", 9002⟩

def sampleRegistry : Registry :=
  ⟨[("pub1", addrA), ("sub1", addrB)], [("temp", [("pub1", addrA)])], []⟩

/-- Witness for C2: node `sub1` subscribes to `temp`, which has the one
publisher `pub1`. -/
theorem subscriber_registration_snapshot_witness :
    dictGet "sub1" sampleRegistry.nodes = some addrB ∧
      (handle_subscriber_registration sampleDefs sampleRegistry "sub1" "temp").2 =
        ((dictGet "temp" sampleRegistry.publishers).getD []).map
          (fun p => ⟨addrB, publisherInfoMsg sampleDefs p.1 p.2 "temp"⟩) ∧
      dictGet "temp" (handle_subscriber_registration sampleDefs sampleRegistry
          "sub1" "temp").1.subscribers =
        some ((dictGet "temp" sampleRegistry.subscribers).getD [] ++
          [("sub1", addrB)]) :=
  ⟨rfl,
    (subscriber_registration_snapshot sampleDefs sampleRegistry
      "sub1" "temp" addrB rfl).1,
    (subscriber_registration_snapshot sampleDefs sampleRegistry
      "sub1" "temp" addrB rfl).2.1⟩

/-- C7: relay fan-out.  A message whose topic is none of the Master's
control topics is handled by forwarding it unchanged, one send per entry,
to the address of every entry currently in `subscribers[topic]` — whatever
other direct paths exist, since `distribute_message` consults only the
registry; and an absent `subscribers[topic]` key means no sends. -/
theorem relay_fanout (defs : MessageDefaults) (st : Registry) (m : Message)
    (h1 : m.topic ≠ "__registration__")
    (h2 : m.topic ≠ "__publisher_registration__")
    (h3 : m.topic ≠ "__subscriber_registration__") :
    handle_message defs st m =
        (st, ((dictGet m.topic st.subscribers).getD []).map
          (fun p => ⟨p.2, m⟩)) ∧
      (dictGet m.topic st.subscribers = none →
        (handle_message defs st m).2 = []) := by
  have hm : handle_message defs st m = distribute_message st m := by
    rw [handle_message, if_neg h1, if_neg h2, if_neg h3]
  refine ⟨by rw [hm]; rfl, ?_⟩
  intro hnone
  rw [hm, distribute_message]
  simp [hnone]

/-- A registry with one subscriber entry for topic `temp`, and an
application message on `temp`, for the C7 and C10 witnesses. -/
def sampleRegistry2 : Registry :=
  ⟨[("pub1", addrA), ("sub1", addrB)], [("temp", [("pub1", addrA)])],
   [("temp", [("sub1", addrB)])]⟩

def sampleMsg : Message := mkMessage sampleDefs "temp" (.str "21.5") (some "pub1")

/-- Witness for C7: the sample message on `temp` is relayed to the one
subscriber entry. -/
theorem relay_fanout_witness :
    sampleMsg.topic ≠ "__registration__" ∧
      handle_message sampleDefs sampleRegistry2 sampleMsg =
        (sampleRegistry2, [⟨addrB, sampleMsg⟩]) :=
  ⟨by decide, by
    rw [(relay_fanout sampleDefs sampleRegistry2 sampleMsg
      (by decide) (by decide) (by decide)).1]
    rfl⟩

/-- An empty registry, for the C9 counterexample. -/
def emptyRegistry : Registry := ⟨[], [], []⟩

/-- C9, counterexample to "the entire Registry is left unchanged": an
unknown node's `__subscriber_registration__` for a topic with no
publishers runs `if topic not in self.subscribers:
self.subscribers[topic] = []` before the `KeyError` is raised in the
append's argument, so `subscribers` gains an empty entry for the topic and
the registry differs from the pre-state. -/
theorem subscriber_registration_unknown_node_changes_registry :
    (handle_subscriber_registration sampleDefs emptyRegistry
      "ghost" "temp").1 ≠ emptyRegistry := by
  decide

/-- C9 (amended): handling `__subscriber_registration__` from a node
that is not a key of `nodes` sends no `__publisher_info__`, leaves
`nodes` and `publishers` unchanged, never appends the subscriber (every
topic's subscriber list is exactly as before — at most an empty list may
appear under the topic), and the Master does not abort (the `KeyError` is
caught and logged). -/
theorem subscriber_registration_unknown_node (defs : MessageDefaults)
    (st : Registry) (S T : String) (h : dictGet S st.nodes = none) :
    (handle_subscriber_registration defs st S T).2 = [] ∧
      (handle_subscriber_registration defs st S T).1.nodes = st.nodes ∧
      (handle_subscriber_registration defs st S T).1.publishers =
        st.publishers ∧
      ∀ t, (dictGet t
          (handle_subscriber_registration defs st S T).1.subscribers).getD []
        = (dictGet t st.subscribers).getD [] := by
  by_cases hE : ((dictGet T st.publishers).getD []).isEmpty = true
  · have hst : handle_subscriber_registration defs st S T =
        ({ st with subscribers := dictEnsure T st.subscribers }, []) := by
      simp only [handle_subscriber_registration, h, if_pos hE]
    rw [hst]
    exact ⟨rfl, rfl, rfl, fun t => dictGet_dictEnsure T t st.subscribers⟩
  · have hst : handle_subscriber_registration defs st S T = (st, []) := by
      simp only [handle_subscriber_registration, h, if_neg hE]
    rw [hst]
    exact ⟨rfl, rfl, rfl, fun t => rfl⟩

/-- Witness for C9's amended claim: the unknown node `ghost` subscribes
to `temp` in the sample registry; nothing is sent and no subscriber list
changes. -/
theorem subscriber_registration_unknown_node_witness :
    dictGet "ghost" sampleRegistry.nodes = none ∧
      (handle_subscriber_registration sampleDefs sampleRegistry
          "ghost" "temp").2 = [] ∧
      (handle_subscriber_registration sampleDefs sampleRegistry
          "ghost" "temp").1.nodes = sampleRegistry.nodes :=
  ⟨rfl,
    (subscriber_registration_unknown_node sampleDefs sampleRegistry
      "ghost" "temp" rfl).1,
    (subscriber_registration_unknown_node sampleDefs sampleRegistry
      "ghost" "temp" rfl).2.1⟩

/-- C10: the registry lists are append-only and not deduplicated.  If a
registered node `S` subscribes to `T` twice, `subscribers[T]` afterwards
holds the pre-existing entries plus TWO copies of `(S, address)`, and a
subsequently relayed message on `T` produces one send per entry — in
particular two sends to `S`'s address. -/
theorem duplicate_subscription_two_entries (defs : MessageDefaults)
    (st : Registry) (S T : String) (addr : NetworkAddress) (m : Message)
    (h : dictGet S st.nodes = some addr) (hm : m.topic = T) :
    (dictGet T ((handle_subscriber_registration defs
        (handle_subscriber_registration defs st S T).1 S T).1).subscribers).getD []
        = (dictGet T st.subscribers).getD [] ++ [(S, addr), (S, addr)] ∧
      (distribute_message ((handle_subscriber_registration defs
          (handle_subscriber_registration defs st S T).1 S T).1) m).2 =
        ((dictGet T st.subscribers).getD [] ++ [(S, addr), (S, addr)]).map
          (fun p => ⟨p.2, m⟩) := by
  have h1 : (handle_subscriber_registration defs st S T).1 =
      { st with subscribers := pyAppend T (S, addr) st.subscribers } := by
    simp only [handle_subscriber_registration, h]
  have h2 : (handle_subscriber_registration defs
      (handle_subscriber_registration defs st S T).1 S T).1 =
      { st with subscribers :=
          pyAppend T (S, addr) (pyAppend T (S, addr) st.subscribers) } := by
    rw [h1]
    simp only [handle_subscriber_registration, h]
  have hsub2 : (dictGet T ((handle_subscriber_registration defs
      (handle_subscriber_registration defs st S T).1 S T).1).subscribers).getD []
      = (dictGet T st.subscribers).getD [] ++ [(S, addr), (S, addr)] := by
    rw [h2]
    show (dictGet T
      (pyAppend T (S, addr) (pyAppend T (S, addr) st.subscribers))).getD [] = _
    rw [dictGet_pyAppend_self, Option.getD_some, dictGet_pyAppend_self,
      Option.getD_some, List.append_assoc]
    rfl
  refine ⟨hsub2, ?_⟩
  show ((dictGet m.topic _).getD []).map _ = _
  rw [hm, hsub2]

/-- Witness for C10: `sub1` subscribes to `temp` twice starting from the
sample registry (whose `subscribers` is empty), then the sample message on
`temp` is distributed: two entries, two sends to `sub1`'s address. -/
theorem duplicate_subscription_two_entries_witness :
    dictGet "sub1" sampleRegistry.nodes = some addrB ∧
      sampleMsg.topic = "temp" ∧
      (distribute_message ((handle_subscriber_registration sampleDefs
          (handle_subscriber_registration sampleDefs sampleRegistry
            "sub1" "temp").1 "sub1" "temp").1) sampleMsg).2 =
        ((dictGet "temp" sampleRegistry.subscribers).getD [] ++
          [("sub1", addrB), ("sub1", addrB)]).map
            (fun p => ⟨p.2, sampleMsg⟩) :=
  ⟨rfl, rfl,
    (duplicate_subscription_two_entries sampleDefs sampleRegistry
      "sub1" "temp" addrB sampleMsg rfl rfl).2⟩

/-! ## Outbound connect with retries (`NetworkNode.connect_to`)

The loop `for attempt in range(self.connection_retries)` tries
`asyncio.open_connection`; a success returns immediately, a failure
records `last_exception` and, iff further attempts remain
(`attempt < self.connection_retries - 1`), sleeps `asyncio.sleep(1)`
before the next attempt; after the loop `raise last_exception` re-raises
the final failure (for a refused TCP connect, a Python `ConnectionError`).
The environment is an oracle `env` giving each 0-based attempt's result. -/

/-- Trace of one `connect_to` call: the number of `open_connection`
attempts performed, the sleeps between consecutive attempts (each the
fixed 1 time unit), and the outcome — a handle, or the re-raised
`last_exception` (`none` only in the degenerate zero-configured-attempts
case, where Python would `raise None`). -/
structure ConnTrace (H E : Type) where
  attemptsMade : Nat
  sleeps : List Nat
  outcome : Except (Option E) H

/-- The retry loop with `r` attempts remaining out of `total`; the
attempt about to run has 0-based index `total - r`. -/
def connectAux {H E : Type} (env : Nat → Except E H) (total : Nat) :
    Nat → Option E → ConnTrace H E
  | 0, lastE => ⟨0, [], .error lastE⟩
  | r + 1, _ =>
    match env (total - (r + 1)) with
    | .ok hd => ⟨1, [], .ok hd⟩
    | .error e =>
      let rest := connectAux env total r (some e)
      ⟨rest.attemptsMade + 1, (if r = 0 then [] else [1]) ++ rest.sleeps,
        rest.outcome⟩

/-- Method `NetworkNode.connect_to` with `connection_retries = retries`
(the constructor sets 3). -/
def connect_to {H E : Type} (env : Nat → Except E H) (retries : Nat) :
    ConnTrace H E :=
  connectAux env retries retries none

theorem connectAux_all_fail {H E : Type} (env : Nat → Except E H)
    (total : Nat) (f : Nat → E) (hfail : ∀ k, k < total → env k = .error (f k)) :
    ∀ r, 1 ≤ r → r ≤ total → ∀ lastE,
      connectAux env total r lastE =
        ⟨r, List.replicate (r - 1) 1, .error (some (f (total - 1)))⟩ := by
  intro r
  induction r with
  | zero => intro h1; omega
  | succ r ih =>
    intro h1 h2 lastE
    have hidx : env (total - (r + 1)) = .error (f (total - (r + 1))) :=
      hfail _ (by omega)
    cases Nat.eq_zero_or_pos r with
    | inl hr0 =>
      subst hr0
      simp only [connectAux, hidx]
      have : total - (0 + 1) = total - 1 := by omega
      rw [this]
      simp
    | inr hrpos =>
      simp only [connectAux, hidx,
        ih (by omega) (by omega) (some (f (total - (r + 1))))]
      rw [if_neg (by omega : ¬ r = 0)]
      have hrep : (1 : Nat) :: List.replicate (r - 1) 1 = List.replicate r 1 := by
        conv_rhs => rw [show r = (r - 1) + 1 by omega, List.replicate_succ]
      show (⟨r + 1, 1 :: List.replicate (r - 1) 1, _⟩ : ConnTrace H E) = _
      rw [hrep]
      have hr1 : r + 1 - 1 = r := by omega
      rw [hr1]

theorem connectAux_success {H E : Type} (env : Nat → Except E H)
    (total : Nat) (j : Nat) (hd : H) (hj : env j = .ok hd)
    (hfail : ∀ k, k < j → ∃ e, env k = .error e) :
    ∀ r, r ≤ total → total - r ≤ j → j < total → ∀ lastE,
      (connectAux env total r lastE).attemptsMade = j - (total - r) + 1 ∧
        (connectAux env total r lastE).outcome = .ok hd := by
  intro r
  induction r with
  | zero => intro h1 h2 h3 _; omega
  | succ r ih =>
    intro h1 h2 h3 lastE
    by_cases hidx : total - (r + 1) = j
    · have henv : env (total - (r + 1)) = .ok hd := by rw [hidx]; exact hj
      have hstep : connectAux env total (r + 1) lastE = ⟨1, [], .ok hd⟩ := by
        simp only [connectAux, henv]
      rw [hstep]
      refine ⟨?_, rfl⟩
      show (1 : Nat) = j - (total - (r + 1)) + 1
      omega
    · have hlt : total - (r + 1) < j := by omega
      obtain ⟨e, he⟩ := hfail _ hlt
      simp only [connectAux, he]
      have hih := ih (by omega) (by omega) h3 (some e)
      refine ⟨?_, hih.2⟩
      show (connectAux env total r (some e)).attemptsMade + 1 = _
      rw [hih.1]
      omega

/-- C3: connection retry bound.  If every attempt fails (`env k` raises
`f k`), `connect_to` performs exactly `retries` attempts with exactly
`retries - 1` sleeps of the fixed 1 time unit between consecutive
attempts, and then fails by re-raising the last attempt's underlying
failure `f (retries - 1)` (the spec's `ConnectionError` carrying the last
underlying failure).  If instead attempt `j` succeeds after `j` failures,
`connect_to` returns the handle having made exactly `j + 1` attempts —
no further attempts follow a success. -/
theorem connect_retry_bound {H E : Type} (env : Nat → Except E H)
    (retries : Nat) :
    (∀ f : Nat → E, 0 < retries →
      (∀ k, k < retries → env k = .error (f k)) →
      (connect_to env retries).attemptsMade = retries ∧
        (connect_to env retries).sleeps = List.replicate (retries - 1) 1 ∧
        (connect_to env retries).outcome = .error (some (f (retries - 1)))) ∧
    (∀ (j : Nat) (hd : H), j < retries → env j = .ok hd →
      (∀ k, k < j → ∃ e, env k = .error e) →
      (connect_to env retries).attemptsMade = j + 1 ∧
        (connect_to env retries).outcome = .ok hd) := by
  constructor
  · intro f hpos hfail
    rw [connect_to,
      connectAux_all_fail env retries f hfail retries (by omega) (by omega)]
    exact ⟨rfl, rfl, rfl⟩
  · intro j hd hj henv hfail
    have := connectAux_success env retries j hd henv hfail retries
      (by omega) (by omega) hj none
    rw [connect_to]
    refine ⟨?_, this.2⟩
    rw [this.1]
    omega

/-- Witness for C3: an address that never accepts — every attempt raises
`"refused"` — with the default 3 configured attempts: exactly 3 attempts,
two 1-unit sleeps between them, and the final failure re-raised. -/
theorem connect_retry_bound_witness :
    (connect_to (fun _ => (Except.error "refused" : Except String Unit))
        3).attemptsMade = 3 ∧
      (connect_to (fun _ => (Except.error "refused" : Except String Unit))
        3).sleeps = [1, 1] ∧
      (connect_to (fun _ => (Except.error "refused" : Except String Unit))
        3).outcome = .error (some "refused") := by
  have h := (connect_retry_bound
      (fun _ => (Except.error "refused" : Except String Unit)) 3).1
    (fun _ => "refused") (by omega) (fun k hk => rfl)
  exact ⟨h.1, by rw [h.2.1]; rfl, h.2.2⟩

/-! ## Node registration handshake (`Node.register_with_master`) -/

/-- The two registration-handshake failures of
`Node.register_with_master` — `node.py` raises Python's builtin
`ConnectionError` with the message `"Failed to send registration
message"` or `"Registration not confirmed by master"`; the spec's error
taxonomy classes a failed or timed-out registration handshake as
`RegistrationError`. -/
inductive RegistrationFailure : Type where
  | sendFailed : RegistrationFailure
  | notConfirmed : RegistrationFailure
deriving DecidableEq, Repr

/-- Method `Node.wait_for_registration(timeout=5)`: `asyncio.wait_for` on
the one-shot `asyncio.Event self.registered`.  The event is set by the
first `__registration_confirm__` handled (`Event.set` is idempotent, so
exactly the first confirmation sets it); `confirmTime` is that first
confirmation's arrival time, `none` if no confirmation ever arrives.  The
wait returns `True` iff the event is set within `timeout` time units of
the wait's start. -/
def wait_for_registration (timeout : ℚ) (confirmTime : Option ℚ) : Bool :=
  match confirmTime with
  | some t => decide (t ≤ timeout)
  | none => false

/-- Method `Node.register_with_master()`: send `__registration__` with the
node's name and resolved address (`send_message` returns a boolean and
never raises); a `False` send result raises; otherwise wait for the
confirmation with the default 5-unit timeout, and a `False` wait result
raises. -/
def register_with_master (sendOk : Bool) (confirmTime : Option ℚ) :
    Except RegistrationFailure Unit :=
  if !sendOk then .error .sendFailed
  else if wait_for_registration 5 confirmTime then .ok ()
  else .error .notConfirmed

/-- C4: registration confirmation.  `register_with_master` completes
successfully exactly when the transport send succeeded and the first
confirmation arrived within the bounded 5-unit wait; it fails with the
registration error exactly when the send failed or no confirmation
arrived within the wait. -/
theorem registration_confirmation (sendOk : Bool) (confirmTime : Option ℚ) :
    (register_with_master sendOk confirmTime = .ok () ↔
        sendOk = true ∧ ∃ t, confirmTime = some t ∧ t ≤ 5) ∧
      ((∃ e, register_with_master sendOk confirmTime = .error e) ↔
        (sendOk = false ∨ ∀ t, confirmTime = some t → 5 < t)) := by
  cases sendOk with
  | false => simp [register_with_master]
  | true =>
    cases confirmTime with
    | none => simp [register_with_master, wait_for_registration]
    | some t =>
      by_cases h5 : t ≤ 5
      · simp [register_with_master, wait_for_registration, h5]
      · simp [register_with_master, wait_for_registration, h5]
        exact not_le.mp h5

/-! ## Length-prefixed framing (`NetworkNode.handle_connection`)

Every accepted connection runs a read loop: `await reader.readexactly(4)`
for the length prefix, `message_size = int.from_bytes(size_data, 'big')`,
then `await reader.readexactly(message_size)` for the payload.
`readexactly` suspends until the requested number of bytes has been
buffered — with fewer bytes than requested nothing is produced and
nothing raised; the loop simply waits for more.  (The vestigial
`NodeProtocol` class in `ros_core.py` is never instantiated — the server
is built with `asyncio.start_server` on `handle_connection` — so the
framing decoder of the running system is this read loop.) -/

/-- Result of one framed-read step over the bytes buffered so far. -/
inductive FrameResult : Type where
  | needMore : FrameResult
  | frame (payload : List Nat) (rest : List Nat) : FrameResult
deriving DecidableEq, Repr

/-- The declared frame length, `int.from_bytes(size_data, 'big')` of the
4 prefix bytes. -/
def declaredLen (b0 b1 b2 b3 : Nat) : Nat :=
  ((b0 * 256 + b1) * 256 + b2) * 256 + b3

/-- One iteration of `handle_connection`'s read loop, applied to the
byte sequence received so far: with fewer than 4 bytes the first
`readexactly` is still suspended; with 4 header bytes but fewer payload
bytes than the declared length the second `readexactly` is still
suspended; only with the full declared payload does the loop hand the
payload to the codec, leaving the remaining bytes buffered. -/
def tryReadFrame (buf : List Nat) : FrameResult :=
  match buf with
  | b0 :: b1 :: b2 :: b3 :: rest =>
    if declaredLen b0 b1 b2 b3 ≤ rest.length then
      .frame (rest.take (declaredLen b0 b1 b2 b3))
        (rest.drop (declaredLen b0 b1 b2 b3))
    else .needMore
  | _ => .needMore

/-- C6: framing partiality.  A buffer shorter than the 4-byte header, or
holding fewer payload bytes than the header declares, yields neither a
decoded frame nor an error — only the need-more-bytes state; and a frame
is produced only when the buffer holds the full declared payload, whose
length then equals the declared length exactly. -/
theorem framing_partiality (buf : List Nat) :
    (buf.length < 4 → tryReadFrame buf = .needMore) ∧
      (∀ b0 b1 b2 b3 rest, buf = b0 :: b1 :: b2 :: b3 :: rest →
        rest.length < declaredLen b0 b1 b2 b3 →
        tryReadFrame buf = .needMore) ∧
      (∀ payload rest2, tryReadFrame buf = .frame payload rest2 →
        ∃ b0 b1 b2 b3 rest, buf = b0 :: b1 :: b2 :: b3 :: rest ∧
          declaredLen b0 b1 b2 b3 ≤ rest.length ∧
          payload.length = declaredLen b0 b1 b2 b3 ∧
          rest = payload ++ rest2) := by
  refine ⟨?_, ?_, ?_⟩
  · intro hshort
    match buf with
    | [] => rfl
    | [_] => rfl
    | [_, _] => rfl
    | [_, _, _] => rfl
    | _ :: _ :: _ :: _ :: _ => simp at hshort; omega
  · rintro b0 b1 b2 b3 rest rfl hlt
    rw [tryReadFrame, if_neg (by omega)]
  · intro payload rest2 hframe
    match buf with
    | [] => exact FrameResult.noConfusion hframe
    | [_] => exact FrameResult.noConfusion hframe
    | [_, _] => exact FrameResult.noConfusion hframe
    | [_, _, _] => exact FrameResult.noConfusion hframe
    | b0 :: b1 :: b2 :: b3 :: rest =>
      rw [tryReadFrame] at hframe
      by_cases hle : declaredLen b0 b1 b2 b3 ≤ rest.length
      · rw [if_pos hle] at hframe
        cases hframe
        refine ⟨b0, b1, b2, b3, rest, rfl, hle, ?_, ?_⟩
        · rw [List.length_take]
          omega
        · rw [List.take_append_drop]
      · rw [if_neg hle] at hframe
        cases hframe

/-- Witness for C6: header `[0,0,0,5]` declares 5 payload bytes but only
2 have arrived — the loop needs more bytes. -/
theorem framing_partiality_witness :
    ([0, 0, 0, 5, 1, 2] : List Nat) = 0 :: 0 :: 0 :: 5 :: [1, 2] ∧
      ([1, 2] : List Nat).length < declaredLen 0 0 0 5 ∧
      tryReadFrame [0, 0, 0, 5, 1, 2] = .needMore :=
  ⟨rfl, by decide,
    (framing_partiality [0, 0, 0, 5, 1, 2]).2.1 0 0 0 5 [1, 2] rfl (by decide)⟩

end RosCore
